import Mathlib

/-!
Verification of the gots trading runtime against its specification.

The Go sources are embedded shallowly: `float64` values become `ℚ` (exact
arithmetic, no NaN/Inf; the NaN/Inf guards of the source are vacuous here),
`int` becomes `ℤ` or `ℕ`, Go slices become `List ℚ`, and the fallible
collaborator calls (indicator suite, executor) become explicit inputs or
`Option`/`Except` values.  Each definition mirrors one Go function, named
after it.
-/

namespace GoTS

/-! ## Price buffer (src/strategy/price_buffer.go) -/

/-- `priceBuffer`: a rolling window of closing prices.  `max` is the capacity,
`buf` the window, oldest first. -/
structure PriceBuffer where
  max : ℕ
  buf : List ℚ
deriving DecidableEq, Repr

/-- `newPriceBuffer(max int)`: capacity defaults to 16 when `max ≤ 0`. -/
def newPriceBuffer (mx : ℤ) : PriceBuffer :=
  { max := (if mx ≤ 0 then (16 : ℤ) else mx).toNat, buf := [] }

namespace PriceBuffer

/-- `Add(v)`: append, then evict the oldest entries beyond capacity. -/
def Add (p : PriceBuffer) (v : ℚ) : PriceBuffer :=
  let b := p.buf ++ [v]
  if p.max < b.length then { max := p.max, buf := b.drop (b.length - p.max) }
  else { max := p.max, buf := b }

end PriceBuffer

/-- The loop body of `Trend()`: +1 per up-tick, −1 per down-tick over
consecutive pairs. -/
def pairScore : List ℚ → ℤ
  | a :: b :: rest => (if a < b then 1 else if b < a then -1 else 0) + pairScore (b :: rest)
  | _ => 0

/-- `Trend()` on the window list: scans the last `min(6, len−1)` transitions
and compares the net score with the threshold `max(2, lookback/3)` (written
exactly as the Go code computes it). -/
def trendOfList (l : List ℚ) : ℤ :=
  if l.length < 2 then 0
  else
    let lookback := if l.length ≤ 6 then l.length - 1 else 6
    let start := l.length - lookback - 1
    let score := pairScore (l.drop start)
    let t0 : ℤ := (lookback : ℤ) / 3
    let threshold : ℤ := if t0 < 2 then 2 else t0
    if threshold ≤ score then 1
    else if score ≤ -threshold then -1
    else 0

/-- The accumulation loop of `Slope()`: given the window and the first
synthetic index, returns `(sumX, sumY, sumXY, sumXX)`. -/
def olsLoop : List ℚ → ℚ → ℚ × ℚ × ℚ × ℚ
  | [], _ => (0, 0, 0, 0)
  | y :: rest, i =>
    let s := olsLoop rest (i + 1)
    (s.1 + i, s.2.1 + y, s.2.2.1 + i * y, s.2.2.2 + i * i)

/-- `Slope()` on the window list: OLS regression of price against a synthetic
index over the last `min(8, len−1)` transitions; 0 when fewer than 2 points
or the denominator is 0. -/
def slopeOfList (l : List ℚ) : ℚ :=
  if l.length < 2 then 0
  else
    let lookback := if l.length ≤ 8 then l.length - 1 else 8
    let start := l.length - lookback - 1
    let w := l.drop start
    let s := olsLoop w 0
    let count : ℚ := (w.length : ℚ)
    let den := count * s.2.2.2 - s.1 * s.1
    if den = 0 then 0 else (count * s.2.2.1 - s.1 * s.2.1) / den

/-- The accumulation loop of `Volatility()`: sum of absolute first
differences, and their number. -/
def volLoop : List ℚ → ℚ × ℕ
  | a :: b :: rest =>
    let s := volLoop (b :: rest)
    (s.1 + |b - a|, s.2 + 1)
  | _ => (0, 0)

/-- `Volatility()` on the window list: mean absolute first difference over the
last `min(8, len−1)` transitions; 0 with insufficient data. -/
def volatilityOfList (l : List ℚ) : ℚ :=
  if l.length < 2 then 0
  else
    let lookback := if l.length ≤ 8 then l.length - 1 else 8
    let start := l.length - lookback - 1
    let w := l.drop start
    let s := volLoop w
    if s.2 = 0 then 0 else s.1 / (s.2 : ℚ)

namespace PriceBuffer

/-- `Trend()` of the buffer. -/
def Trend (p : PriceBuffer) : ℤ := trendOfList p.buf

/-- `Slope()` of the buffer. -/
def Slope (p : PriceBuffer) : ℚ := slopeOfList p.buf

/-- `Volatility()` of the buffer. -/
def Volatility (p : PriceBuffer) : ℚ := volatilityOfList p.buf

/-- `Len()` of the buffer. -/
def Len (p : PriceBuffer) : ℕ := p.buf.length

/-- `Last()`: most recent price, 0 when empty. -/
def Last (p : PriceBuffer) : ℚ := p.buf.getD (p.buf.length - 1) 0

/-- `Prev()`: price before the most recent one, 0 when fewer than 2. -/
def Prev (p : PriceBuffer) : ℚ :=
  if p.buf.length < 2 then 0 else p.buf.getD (p.buf.length - 2) 0

end PriceBuffer

/-- Feeding a whole series of closes to the buffer. -/
def addAll (p : PriceBuffer) (vs : List ℚ) : PriceBuffer :=
  vs.foldl PriceBuffer.Add p

/-! ## Strategy configuration (config package) -/

/-- `config.StrategyConfig`. -/
structure StrategyConfig where
  RSIOverbought : ℚ := 0
  RSIOversold : ℚ := 0
  MFIOverbought : ℚ := 0
  MFIOversold : ℚ := 0
  VWAOStrongTrend : ℚ := 0
  HMAPeriod : ℤ := 0
  ADMOOverbought : ℚ := 0
  ADMOOversold : ℚ := 0
  ATSEMAperiod : ℤ := 0
  MaxRiskPerTrade : ℚ := 0
  StopLossPct : ℚ := 0
  TakeProfitPct : ℚ := 0
  TrailingPct : ℚ := 0
  QuantityPrecision : ℤ := 0
  MinQty : ℚ := 0
  StepSize : ℚ := 0
deriving DecidableEq, Repr

/-- `StrategyConfig.Validate`: the first error message, or `none` when the
configuration is accepted. -/
def Validate (c : StrategyConfig) : Option String :=
  if c.RSIOverbought = c.RSIOversold then some "RSIOverbought and RSIOversold cannot be equal"
  else if c.HMAPeriod ≤ 0 then some "HMAPeriod must be positive"
  else if c.ATSEMAperiod ≤ 0 then some "ATSEMAperiod must be positive"
  else if c.MaxRiskPerTrade ≤ 0 ∨ 1/2 < c.MaxRiskPerTrade then some "MaxRiskPerTrade must be >0 and <=0.5"
  else if c.StopLossPct ≤ 0 ∨ 1/5 < c.StopLossPct then some "StopLossPct must be >0 and <=0.2"
  else if c.TakeProfitPct < 0 ∨ 5 < c.TakeProfitPct then some "TakeProfitPct out of realistic range"
  else if c.TrailingPct < 0 ∨ 1 < c.TrailingPct then some "TrailingPct must be between 0 and 1"
  else if c.QuantityPrecision < 0 then some "QuantityPrecision cannot be negative"
  else if c.MinQty < 0 then some "MinQty cannot be negative"
  else if c.StepSize ≤ 0 then some "StepSize must be positive"
  else if c.MFIOverbought = c.MFIOversold then some "MFIOverbought and MFIOversold cannot be equal"
  else none

/-! ## Risk sizer (src/risk/risk.go) -/

/-- `risk.CalcQty`: risk-bounded quantity, floored to the step size and to the
quantity precision, rejected below the minimum quantity. -/
def CalcQty (equity maxRisk stopLossPct price : ℚ) (cfg : StrategyConfig) : ℚ :=
  let riskAmt := equity * maxRisk
  let slDist := price * stopLossPct
  if slDist ≤ 0 then 0
  else
    let rawQty := riskAmt / slDist
    let rawQty := if 0 < cfg.StepSize then (⌊rawQty / cfg.StepSize⌋ : ℚ) * cfg.StepSize else rawQty
    let rawQty :=
      if 0 < cfg.QuantityPrecision then
        let factor : ℚ := 10 ^ cfg.QuantityPrecision.toNat
        (⌊rawQty * factor⌋ : ℚ) / factor
      else rawQty
    if rawQty < cfg.MinQty then 0 else rawQty

/-! ## Orders and the base strategy runtime (types package, BaseStrategy) -/

/-- `types.Side`. -/
inductive Side
  | buy
  | sell
deriving DecidableEq, Repr

/-- `types.Order` (the free-text comment tag is omitted: no claim reads it). -/
structure Order where
  symbol : String
  side : Side
  qty : ℚ
  price : ℚ
deriving DecidableEq, Repr

/-- `BaseStrategy.trailingStopLevel(entryAvg, side)`. -/
def trailingStopLevel (trailingPct entryAvg side : ℚ) : ℚ :=
  if 0 < side then entryAvg * (1 + trailingPct) else entryAvg * (1 - trailingPct)

/-- `math.Copysign(1, q)` for the arguments the runtime uses (`q` is a
position quantity; Go's `+0` carries sign bit 0, so `q = 0` yields `1`). -/
def copysignOne (q : ℚ) : ℚ := if q < 0 then -1 else 1

/-- `BaseStrategy.closePosition(price, ctx)`: the flattening order it submits,
or `none` when flat.  `qty` is the executor position for the strategy's
symbol. -/
def closePositionOrder (symbol : String) (qty price : ℚ) : Option Order :=
  if qty = 0 then none
  else some { symbol := symbol, side := if qty < 0 then Side.buy else Side.sell, qty := |qty|, price := price }

/-- `BaseStrategy.applyTrailingStop(currentPrice)`: the closing order it
submits, or `none`.  `qty, avg` are the executor position for the strategy's
symbol. -/
def applyTrailingStop (trailingPct : ℚ) (symbol : String) (qty avg currentPrice : ℚ) : Option Order :=
  if trailingPct ≤ 0 then none
  else if qty = 0 then none
  else
    let level := trailingStopLevel trailingPct avg (copysignOne qty)
    if (0 < qty ∧ level ≤ currentPrice) ∨ (qty < 0 ∧ currentPrice ≤ level) then
      closePositionOrder symbol qty currentPrice
    else none

/-- `BaseStrategy.sanitizeVolatility(raw, price)`:  `prices` is the window of
the strategy's price buffer (`swingVolatility()` is its `Volatility()`).  The
`math.IsNaN`/`math.IsInf` guards of the source are vacuous over `ℚ`. -/
def sanitizeVolatility (prices : List ℚ) (raw price : ℚ) : ℚ :=
  let price := if price ≤ 0 then 1 else price
  if raw ≤ 0 ∨ price * (1/10) < raw then
    let fallback := volatilityOfList prices
    let fallback := if fallback ≤ 0 then price * (2/100) else fallback
    max fallback (1/10000)
  else raw

/-- `NewBaseStrategy`: validates the config, then runs the indicator-suite
factory.  The suite itself is an external collaborator, so the factory is
modelled by its outcome; the constructed strategy is represented by its
(validated) config, the only field the claims read. -/
def NewBaseStrategy (cfg : StrategyConfig) (factory : Except String Unit) : Except String StrategyConfig :=
  match Validate cfg with
  | some e => Except.error e
  | none =>
    match factory with
    | Except.error e => Except.error e
    | Except.ok _ => Except.ok cfg

/-! ## Concrete configurations used by scenario claims -/

/-- The spec §8 sizing scenario's broker constraints (the remaining fields are
the permissive values the test harness uses; `CalcQty` does not read them). -/
def scenarioCfg : StrategyConfig :=
  { RSIOverbought := 70, RSIOversold := 30, MFIOverbought := 80, MFIOversold := 20,
    HMAPeriod := 9, ATSEMAperiod := 5, MaxRiskPerTrade := 1/100, StopLossPct := 15/1000,
    QuantityPrecision := 2, MinQty := 1/1000, StepSize := 1/10000 }

/-- A Validate-accepted configuration whose step size 0.007 does not divide
the 2-digit precision grid. -/
def coarseStepCfg : StrategyConfig :=
  { RSIOverbought := 70, RSIOversold := 30, MFIOverbought := 80, MFIOversold := 20,
    HMAPeriod := 9, ATSEMAperiod := 5, MaxRiskPerTrade := 1/100, StopLossPct := 15/1000,
    QuantityPrecision := 2, MinQty := 1/1000, StepSize := 7/1000 }

/-- Evaluation helper: `Int.toNat` on the literal the scenario configs use. -/
theorem two_toNat : (2 : ℤ).toNat = 2 := rfl

/-- C6: the spec §8 sizing scenario.  Risk $100 over a $1.50 stop gives raw
quantity 200/3; flooring to the 0.0001 step yields 66.6666 and flooring to
2 decimal digits yields exactly 66.66. -/
theorem calcQty_scenario_66_66 :
    CalcQty 10000 (1/100) (15/1000) 100 scenarioCfg = 6666/100 := by
  norm_num [CalcQty, scenarioCfg, two_toNat]

/-- C2 (amended): for Validate-accepted constraints, `CalcQty` returns 0 or a
value `≥ MinQty` that is a fixed point of flooring to `QuantityPrecision`
digits when the precision is positive, and an integer multiple of `StepSize`
when the precision is 0 (precision flooring, when it acts, can leave the
step-size grid — see the counterexample). -/
theorem calcQty_quantization (equity maxRisk stopLossPct price : ℚ) (cfg : StrategyConfig)
    (hstep : 0 < cfg.StepSize) (hprec : 0 ≤ cfg.QuantityPrecision) (hmin : 0 ≤ cfg.MinQty) :
    CalcQty equity maxRisk stopLossPct price cfg = 0 ∨
      (cfg.MinQty ≤ CalcQty equity maxRisk stopLossPct price cfg ∧
       (0 < cfg.QuantityPrecision →
         (⌊CalcQty equity maxRisk stopLossPct price cfg * 10 ^ cfg.QuantityPrecision.toNat⌋ : ℚ) /
             10 ^ cfg.QuantityPrecision.toNat =
           CalcQty equity maxRisk stopLossPct price cfg) ∧
       (cfg.QuantityPrecision = 0 →
         ∃ k : ℤ, CalcQty equity maxRisk stopLossPct price cfg = k * cfg.StepSize)) := by
  have hf : (10 : ℚ) ^ cfg.QuantityPrecision.toNat ≠ 0 := pow_ne_zero _ (by norm_num)
  have hstep' : (0 < cfg.StepSize) = True := eq_true hstep
  simp only [CalcQty, hstep', if_true]
  split_ifs with h1 h2 h3 h4
  · exact Or.inl rfl
  · exact Or.inl rfl
  · refine Or.inr ⟨not_lt.mp h3, fun _ => ?_, fun h0 => absurd h0 (by omega)⟩
    rw [div_mul_cancel₀ _ hf, Int.floor_intCast]
  · exact Or.inl rfl
  · refine Or.inr ⟨not_lt.mp h4, fun hp => absurd hp h2, fun _ => ?_⟩
    exact ⟨⌊equity * maxRisk / (price * stopLossPct) / cfg.StepSize⌋, rfl⟩

/-- C2 witness: the quantization guarantee at the spec §8 scenario inputs. -/
theorem calcQty_quantization_witness :
    CalcQty 10000 (1/100) (15/1000) 100 scenarioCfg = 0 ∨
      (scenarioCfg.MinQty ≤ CalcQty 10000 (1/100) (15/1000) 100 scenarioCfg ∧
       (0 < scenarioCfg.QuantityPrecision →
         (⌊CalcQty 10000 (1/100) (15/1000) 100 scenarioCfg *
               10 ^ scenarioCfg.QuantityPrecision.toNat⌋ : ℚ) /
             10 ^ scenarioCfg.QuantityPrecision.toNat =
           CalcQty 10000 (1/100) (15/1000) 100 scenarioCfg) ∧
       (scenarioCfg.QuantityPrecision = 0 →
         ∃ k : ℤ, CalcQty 10000 (1/100) (15/1000) 100 scenarioCfg = k * scenarioCfg.StepSize)) :=
  calcQty_quantization 10000 (1/100) (15/1000) 100 scenarioCfg (by norm_num [scenarioCfg])
    (by norm_num [scenarioCfg]) (by norm_num [scenarioCfg])

/-- C2 counterexample: with the Validate-accepted constraints
`StepSize = 0.007`, `QuantityPrecision = 2`, `MinQty = 0.001` and raw quantity
0.05, `CalcQty` returns 0.04 — non-zero, yet not an integer multiple of the
step size. -/
theorem calcQty_step_multiple_cex :
    Validate coarseStepCfg = none ∧
    CalcQty 1 (1/20) 1 1 coarseStepCfg = 1/25 ∧
    (1 : ℚ)/25 ≠ 0 ∧
    ¬ ∃ k : ℤ, (1 : ℚ)/25 = k * coarseStepCfg.StepSize := by
  refine ⟨by norm_num [Validate, coarseStepCfg], by norm_num [CalcQty, coarseStepCfg, two_toNat],
    by norm_num, ?_⟩
  rintro ⟨k, hk⟩
  have h40 : ((7 * k : ℤ) : ℚ) = 40 := by
    push_cast
    simp only [coarseStepCfg] at hk
    linarith
  have : (7 * k : ℤ) = 40 := by exact_mod_cast h40
  omega

/-- C4: `applyTrailingStop` is a no-op when trailing is disabled or the
position is flat; with trailing enabled it emits the flattening order exactly
when the price has reached `avg * (1 ± TrailingPct)`, so a triggered close of
a long is never below that level (symmetrically for shorts). -/
theorem applyTrailingStop_level_spec (tp : ℚ) (sym : String) (qty avg price : ℚ) :
    ((tp ≤ 0 ∨ qty = 0) → applyTrailingStop tp sym qty avg price = none) ∧
    (0 < tp → 0 < qty →
      ((applyTrailingStop tp sym qty avg price).isSome ↔ avg * (1 + tp) ≤ price)) ∧
    (0 < tp → qty < 0 →
      ((applyTrailingStop tp sym qty avg price).isSome ↔ price ≤ avg * (1 - tp))) ∧
    (∀ o, applyTrailingStop tp sym qty avg price = some o →
      o.price = price ∧ o.qty = |qty| ∧
      (0 < qty → avg * (1 + tp) ≤ price) ∧ (qty < 0 → price ≤ avg * (1 - tp))) := by
  refine ⟨?_, ?_, ?_, ?_⟩
  · rintro (h | h)
    · simp [applyTrailingStop, h]
    · simp [applyTrailingStop, h]
  · intro htp hq
    have hcs : copysignOne qty = 1 := if_neg (not_lt.mpr (le_of_lt hq))
    simp only [applyTrailingStop, trailingStopLevel, hcs,
      if_neg (not_le.mpr htp), if_neg (ne_of_gt hq)]
    rw [if_pos (by norm_num : (0:ℚ) < 1)]
    by_cases hle : avg * (1 + tp) ≤ price
    · rw [if_pos (Or.inl ⟨hq, hle⟩)]
      simp [closePositionOrder, ne_of_gt hq, hle]
    · rw [if_neg ?_]
      · simp [hle]
      · rintro (⟨_, hc⟩ | ⟨hc, _⟩)
        · exact hle hc
        · exact absurd hc (not_lt.mpr (le_of_lt hq))
  · intro htp hq
    have hcs : copysignOne qty = -1 := if_pos hq
    simp only [applyTrailingStop, trailingStopLevel, hcs,
      if_neg (not_le.mpr htp), if_neg (ne_of_lt hq)]
    rw [if_neg (by norm_num : ¬ (0:ℚ) < -1)]
    by_cases hle : price ≤ avg * (1 - tp)
    · rw [if_pos (Or.inr ⟨hq, hle⟩)]
      simp [closePositionOrder, ne_of_lt hq, hle]
    · rw [if_neg ?_]
      · simp [hle]
      · rintro (⟨hc, _⟩ | ⟨_, hc⟩)
        · exact absurd hc (not_lt.mpr (le_of_lt hq))
        · exact hle hc
  · intro o ho
    by_cases h0 : tp ≤ 0
    · simp [applyTrailingStop, h0] at ho
    by_cases hq0 : qty = 0
    · simp [applyTrailingStop, h0, hq0] at ho
    simp only [applyTrailingStop, trailingStopLevel, copysignOne,
      if_neg h0, if_neg hq0, closePositionOrder] at ho
    by_cases hneg : qty < 0
    · simp only [if_pos hneg, if_neg (by norm_num : ¬ (0:ℚ) < -1)] at ho
      split_ifs at ho with hcond
      injection ho with h
      subst h
      refine ⟨rfl, rfl, fun hgt => absurd hgt (not_lt.mpr (le_of_lt hneg)), fun _ => ?_⟩
      rcases hcond with ⟨hgt, _⟩ | ⟨_, hle⟩
      · exact absurd hgt (not_lt.mpr (le_of_lt hneg))
      · exact hle
    · simp only [if_neg hneg, if_pos (by norm_num : (0:ℚ) < 1)] at ho
      split_ifs at ho with hcond
      injection ho with h
      subst h
      refine ⟨rfl, rfl, fun _ => ?_, fun hlt => absurd hlt hneg⟩
      rcases hcond with ⟨_, hle⟩ | ⟨hlt, _⟩
      · exact hle
      · exact absurd hlt hneg

/-- C5 (amended): `sanitizeVolatility` is always strictly positive; it first
replaces a non-positive `price` by 1, then substitutes the fallback (buffer
volatility if positive, else 2% of the adjusted price, floored at 0.0001)
exactly when `raw ≤ 0` or `raw` exceeds 10% of the adjusted price, and
returns `raw` otherwise. -/
theorem sanitizeVolatility_positive_spec (prices : List ℚ) (raw price : ℚ) :
    0 < sanitizeVolatility prices raw price ∧
    (raw ≤ 0 ∨ (if price ≤ 0 then 1 else price) * (1/10) < raw →
      sanitizeVolatility prices raw price =
        max (if volatilityOfList prices ≤ 0 then (if price ≤ 0 then 1 else price) * (2/100)
             else volatilityOfList prices) (1/10000)) ∧
    (0 < raw ∧ raw ≤ (if price ≤ 0 then 1 else price) * (1/10) →
      sanitizeVolatility prices raw price = raw) := by
  refine ⟨?_, ?_, ?_⟩
  · simp only [sanitizeVolatility]
    split_ifs with h1 h2 h3 h4 h5
    · exact lt_of_lt_of_le (by norm_num) (le_max_right _ _)
    · exact lt_of_lt_of_le (by norm_num) (le_max_right _ _)
    · push_neg at h2
      exact h2.1
    · exact lt_of_lt_of_le (by norm_num) (le_max_right _ _)
    · exact lt_of_lt_of_le (by norm_num) (le_max_right _ _)
    · push_neg at h4
      exact h4.1
  · intro h
    simp only [sanitizeVolatility, if_pos h]
  · rintro ⟨hpos, hle⟩
    simp only [sanitizeVolatility]
    rw [if_neg ?_]
    rintro (hc | hc)
    · linarith
    · linarith

/-- C5 counterexample: at `price = 0`, `raw = 0.05` the claim's fallback
condition (`raw` greater than 10% of the given price) holds and the claim
prescribes the floored fallback 0.0001, but the code first replaces the
non-positive price by 1 and then accepts `raw`, returning 0.05. -/
theorem sanitizeVolatility_zero_price_cex :
    sanitizeVolatility [] (1/20) 0 = 1/20 ∧
    (0 : ℚ) * (1/10) < 1/20 ∧
    volatilityOfList [] = 0 ∧
    max (if volatilityOfList [] ≤ 0 then (0 : ℚ) * (2/100) else volatilityOfList []) (1/10000)
      = 1/10000 ∧
    (1 : ℚ)/20 ≠ 1/10000 := by
  refine ⟨?_, by norm_num, by norm_num [volatilityOfList], ?_, by norm_num⟩
  · norm_num [sanitizeVolatility, volatilityOfList]
  · norm_num [volatilityOfList]

/-- C7: `Trend()` only returns −1, 0 or +1; it returns 0 on fewer than 2
prices, and otherwise compares the net up/down score of the last
`min(6, len−1)` transitions against the threshold `max(2, lookback/3)`:
+1 exactly at or above the threshold, −1 exactly at or below its negation,
0 exactly strictly in between. -/
theorem trend_range_spec (p : PriceBuffer) :
    (p.Trend = -1 ∨ p.Trend = 0 ∨ p.Trend = 1) ∧
    (p.buf.length < 2 → p.Trend = 0) ∧
    (2 ≤ p.buf.length →
      (p.Trend = 1 ↔
        max 2 (((min 6 (p.buf.length - 1) : ℕ) : ℤ) / 3) ≤
          pairScore (p.buf.drop (p.buf.length - min 6 (p.buf.length - 1) - 1))) ∧
      (p.Trend = -1 ↔
        pairScore (p.buf.drop (p.buf.length - min 6 (p.buf.length - 1) - 1)) ≤
          -(max 2 (((min 6 (p.buf.length - 1) : ℕ) : ℤ) / 3))) ∧
      (p.Trend = 0 ↔
        -(max 2 (((min 6 (p.buf.length - 1) : ℕ) : ℤ) / 3)) <
            pairScore (p.buf.drop (p.buf.length - min 6 (p.buf.length - 1) - 1)) ∧
          pairScore (p.buf.drop (p.buf.length - min 6 (p.buf.length - 1) - 1)) <
            max 2 (((min 6 (p.buf.length - 1) : ℕ) : ℤ) / 3))) := by
  have hlb : (if p.buf.length ≤ 6 then p.buf.length - 1 else 6) = min 6 (p.buf.length - 1) := by
    split_ifs with h <;> omega
  have hthr : ∀ t0 : ℤ, (if t0 < 2 then 2 else t0) = max 2 t0 := fun t0 => by omega
  refine ⟨?_, ?_, ?_⟩
  · simp only [PriceBuffer.Trend, trendOfList]
    split_ifs <;> norm_num
  · intro h
    simp [PriceBuffer.Trend, trendOfList, if_pos h]
  · intro h
    have hth2 : max 2 (((min 6 (p.buf.length - 1) : ℕ) : ℤ) / 3) = 2 := by omega
    simp only [PriceBuffer.Trend, trendOfList, hlb, hthr, if_neg (not_lt.mpr h), hth2]
    split_ifs with ha hb <;> refine ⟨?_, ?_, ?_⟩ <;> constructor <;> intro h' <;>
      first
        | exact h'.elim
        | omega

set_option maxHeartbeats 1000000 in
/-- C8: `Validate` errors exactly on the listed violations and accepts
otherwise; `NewBaseStrategy` yields a strategy exactly when `Validate`
accepts and the indicator-suite factory succeeds. -/
theorem validate_construction_spec (c : StrategyConfig) (factory : Except String Unit) :
    (Validate c ≠ none ↔
      (c.RSIOverbought = c.RSIOversold ∨ c.MFIOverbought = c.MFIOversold ∨
       c.HMAPeriod ≤ 0 ∨ c.ATSEMAperiod ≤ 0 ∨
       c.MaxRiskPerTrade ≤ 0 ∨ 1/2 < c.MaxRiskPerTrade ∨
       c.StopLossPct ≤ 0 ∨ 1/5 < c.StopLossPct ∨
       c.TakeProfitPct < 0 ∨ 5 < c.TakeProfitPct ∨
       c.TrailingPct < 0 ∨ 1 < c.TrailingPct ∨
       c.QuantityPrecision < 0 ∨ c.MinQty < 0 ∨ c.StepSize ≤ 0)) ∧
    ((∃ s, NewBaseStrategy c factory = Except.ok s) ↔
      (Validate c = none ∧ ∃ u, factory = Except.ok u)) := by
  constructor
  · simp only [Validate]
    split_ifs with h1 h2 h3 h4 h5 h6 h7 h8 h9 h10 h11
    · exact iff_of_true (by simp) (by tauto)
    · exact iff_of_true (by simp) (by tauto)
    · exact iff_of_true (by simp) (by tauto)
    · exact iff_of_true (by simp) (by tauto)
    · exact iff_of_true (by simp) (by tauto)
    · exact iff_of_true (by simp) (by tauto)
    · exact iff_of_true (by simp) (by tauto)
    · exact iff_of_true (by simp) (by tauto)
    · exact iff_of_true (by simp) (by tauto)
    · exact iff_of_true (by simp) (by tauto)
    · exact iff_of_true (by simp) (by tauto)
    · exact iff_of_false (by simp) (by tauto)
  · cases hv : Validate c <;> cases factory <;> simp [NewBaseStrategy, hv]

/-! ## Flat-series behaviour of the price statistics -/

/-- `Add`ing the repeated constant keeps the window a constant list. -/
theorem add_replicate (p : PriceBuffer) (c : ℚ) (m : ℕ) (h : p.buf = List.replicate m c) :
    ∃ k, (p.Add c).buf = List.replicate k c := by
  simp only [PriceBuffer.Add, h, ← List.replicate_succ']
  split_ifs with hlen
  · exact ⟨_, by rw [List.drop_replicate]⟩
  · exact ⟨m + 1, rfl⟩

/-- Feeding any number of copies of a constant keeps the window constant. -/
theorem addAll_replicate (c : ℚ) :
    ∀ (n : ℕ) (p : PriceBuffer) (m : ℕ), p.buf = List.replicate m c →
      ∃ k, (addAll p (List.replicate n c)).buf = List.replicate k c := by
  intro n
  induction n with
  | zero => exact fun p m h => ⟨m, h⟩
  | succ j ih =>
    intro p m h
    obtain ⟨m', hm'⟩ := add_replicate p c m h
    rw [List.replicate_succ]
    exact ih (p.Add c) m' hm'

/-- On a constant window the OLS sums satisfy `sumY = count·c` and
`sumXY = c·sumX`. -/
theorem olsLoop_replicate (c : ℚ) :
    ∀ (m : ℕ) (i : ℚ),
      (olsLoop (List.replicate m c) i).2.1 = m * c ∧
      (olsLoop (List.replicate m c) i).2.2.1 = c * (olsLoop (List.replicate m c) i).1 := by
  intro m
  induction m with
  | zero => intro i; simp [olsLoop]
  | succ k ih =>
    intro i
    obtain ⟨h1, h2⟩ := ih (i + 1)
    simp only [List.replicate_succ, olsLoop, h1, h2]
    constructor
    · push_cast
      ring
    · ring

/-- The OLS numerator vanishes on a constant window. -/
theorem slope_num_zero (k : ℕ) (c : ℚ) :
    ((List.replicate k c).length : ℚ) * (olsLoop (List.replicate k c) 0).2.2.1 -
        (olsLoop (List.replicate k c) 0).1 * (olsLoop (List.replicate k c) 0).2.1 = 0 := by
  obtain ⟨hA, hB⟩ := olsLoop_replicate c k 0
  rw [List.length_replicate, hA, hB]
  ring

/-- A constant window has OLS slope 0. -/
theorem slopeOfList_replicate (m : ℕ) (c : ℚ) : slopeOfList (List.replicate m c) = 0 := by
  simp only [slopeOfList]
  split_ifs <;>
    first
      | rfl
      | (rw [List.drop_replicate, div_eq_zero_iff]
         exact Or.inl (slope_num_zero _ c))

/-- The absolute first differences of a constant window sum to 0. -/
theorem volLoop_replicate (c : ℚ) : ∀ m, (volLoop (c :: List.replicate m c)).1 = 0 := by
  intro m
  induction m with
  | zero => simp [volLoop]
  | succ k ih =>
    simp only [List.replicate_succ, volLoop] at *
    rw [ih]
    simp

/-- The first-difference sum vanishes on any constant window. -/
theorem volLoop_replicate_zero (c : ℚ) : ∀ k, (volLoop (List.replicate k c)).1 = 0 := by
  intro k
  cases k with
  | zero => simp [volLoop]
  | succ j =>
    rw [List.replicate_succ]
    exact volLoop_replicate c j

/-- A constant window has volatility 0. -/
theorem volatilityOfList_replicate (m : ℕ) (c : ℚ) :
    volatilityOfList (List.replicate m c) = 0 := by
  simp only [volatilityOfList]
  split_ifs <;>
    first
      | rfl
      | (rw [List.drop_replicate, volLoop_replicate_zero, zero_div])

/-- C9: after adding `N ≥ 10` copies of the same price to a fresh buffer,
both `Slope()` and `Volatility()` are exactly 0. -/
theorem flat_series_slope_volatility_zero (N : ℕ) (c : ℚ) (hN : 10 ≤ N) :
    (addAll (newPriceBuffer 64) (List.replicate N c)).Slope = 0 ∧
    (addAll (newPriceBuffer 64) (List.replicate N c)).Volatility = 0 := by
  obtain ⟨k, hk⟩ := addAll_replicate c N (newPriceBuffer 64) 0 rfl
  rw [PriceBuffer.Slope, PriceBuffer.Volatility, hk]
  exact ⟨slopeOfList_replicate k c, volatilityOfList_replicate k c⟩

/-- C9 witness: ten copies of the price 3. -/
theorem flat_series_slope_volatility_zero_witness :
    10 ≤ 10 ∧
    ((addAll (newPriceBuffer 64) (List.replicate 10 3)).Slope = 0 ∧
     (addAll (newPriceBuffer 64) (List.replicate 10 3)).Volatility = 0) :=
  ⟨by norm_num, flat_series_slope_volatility_zero 10 3 (by norm_num)⟩

/-! ## Capital-rotation scheduler (RiskParityRotation) -/

/-- `barSnapshot`. -/
structure BarSnapshot where
  high : ℚ
  low : ℚ
  close : ℚ
  volume : ℚ
deriving DecidableEq, Repr

/-- `SymbolState`: the per-symbol bookkeeping, plus the observable state of
the symbol's external indicator suite (close series, ATSO values and the
three `Calculate` outcomes, `none` meaning the indicator returned an
error). -/
structure SymbolState where
  score : ℚ
  lastBar : BarSnapshot
  hasLast : Bool
  prevClose : ℚ
  hasPrev : Bool
  closes : List ℚ
  atsoVals : List ℚ
  atsoCalc : Option ℚ
  rsiCalc : Option ℚ
  mfiCalc : Option ℚ
deriving DecidableEq, Repr

/-- `clamp01`. -/
def clamp01 (v : ℚ) : ℚ := if v < 0 then 0 else if 1 < v then 1 else v

/-- `clamp`. -/
def clamp (v minVal maxVal : ℚ) : ℚ :=
  if v < minVal then minVal else if maxVal < v then maxVal else v

/-- The RSI component of `computeStrength` (the `goti.DefaultConfig()`
thresholds 70/30 documented in the config package stand in when the
configured band is degenerate). -/
def rsiNorm (cfg : StrategyConfig) (rsiVal : ℚ) : ℚ :=
  let upper := if cfg.RSIOverbought ≤ cfg.RSIOversold then 70 else cfg.RSIOverbought
  let lower := if cfg.RSIOverbought ≤ cfg.RSIOversold then 30 else cfg.RSIOversold
  clamp01 ((rsiVal - lower) / (upper - lower))

/-- The MFI component of `computeStrength` (default band 80/20). -/
def mfiNorm (cfg : StrategyConfig) (mfiVal : ℚ) : ℚ :=
  let upper := if cfg.MFIOverbought ≤ cfg.MFIOversold then 80 else cfg.MFIOverbought
  let lower := if cfg.MFIOverbought ≤ cfg.MFIOversold then 20 else cfg.MFIOversold
  clamp01 ((mfiVal - lower) / (upper - lower))

/-- The ATSO component of `computeStrength`. -/
def atsoNorm (atsoLast : ℚ) : ℚ := clamp01 (|atsoLast| / 3)

/-- `closePx` of the heuristic fallback: last close, or 1 when non-positive. -/
def closePx (st : SymbolState) : ℚ :=
  if st.lastBar.close ≤ 0 then 1 else st.lastBar.close

/-- `rangePerc` of the heuristic fallback. -/
def rangePerc (st : SymbolState) : ℚ :=
  if 0 < st.lastBar.high - st.lastBar.low then
    clamp01 ((st.lastBar.high - st.lastBar.low) / (closePx st * (5/100)))
  else 0

/-- `momentum` of the heuristic fallback. -/
def momentumScore (st : SymbolState) : ℚ :=
  if st.hasPrev = true ∧ 0 < st.prevClose then
    clamp ((st.lastBar.close - st.prevClose) / st.prevClose / (5/100)) 0 1
  else 0

/-- `volumeNorm` of the heuristic fallback. -/
def volumeNorm (st : SymbolState) : ℚ :=
  if 0 < st.lastBar.volume then clamp01 (st.lastBar.volume / 8000) else 0

/-- `RiskParityRotation.computeStrength`: the indicator composite when RSI,
MFI and the ATSO series are all available, otherwise the heuristic fallback
(0 with no bar data). -/
def computeStrength (cfg : StrategyConfig) (st : SymbolState) : ℚ :=
  match st.rsiCalc, st.mfiCalc, st.atsoVals.getLast? with
  | some rsiVal, some mfiVal, some atsoLast =>
    35/100 * rsiNorm cfg rsiVal + 35/100 * mfiNorm cfg mfiVal + 30/100 * atsoNorm atsoLast
  | _, _, _ =>
    if st.hasLast = false then 0
    else 6/10 * rangePerc st + 3/10 * momentumScore st + 1/10 * volumeNorm st

theorem clamp01_bounds (v : ℚ) : 0 ≤ clamp01 v ∧ clamp01 v ≤ 1 := by
  unfold clamp01
  split_ifs <;> constructor <;> linarith

theorem clamp01_bounds_left (v : ℚ) : 0 ≤ clamp01 v := (clamp01_bounds v).1

theorem clamp01_bounds_right (v : ℚ) : clamp01 v ≤ 1 := (clamp01_bounds v).2

theorem clamp_unit_bounds (v : ℚ) : 0 ≤ clamp v 0 1 ∧ clamp v 0 1 ≤ 1 := by
  unfold clamp
  split_ifs <;> constructor <;> linarith

theorem rsiNorm_bounds (cfg : StrategyConfig) (v : ℚ) :
    0 ≤ rsiNorm cfg v ∧ rsiNorm cfg v ≤ 1 := clamp01_bounds _

theorem mfiNorm_bounds (cfg : StrategyConfig) (v : ℚ) :
    0 ≤ mfiNorm cfg v ∧ mfiNorm cfg v ≤ 1 := clamp01_bounds _

theorem atsoNorm_bounds (v : ℚ) : 0 ≤ atsoNorm v ∧ atsoNorm v ≤ 1 := clamp01_bounds _

theorem rangePerc_bounds (st : SymbolState) : 0 ≤ rangePerc st ∧ rangePerc st ≤ 1 := by
  unfold rangePerc
  split_ifs
  · exact clamp01_bounds _
  · exact ⟨le_refl 0, by norm_num⟩

theorem momentumScore_bounds (st : SymbolState) :
    0 ≤ momentumScore st ∧ momentumScore st ≤ 1 := by
  unfold momentumScore
  split_ifs
  · exact clamp_unit_bounds _
  · exact ⟨le_refl 0, by norm_num⟩

theorem volumeNorm_bounds (st : SymbolState) : 0 ≤ volumeNorm st ∧ volumeNorm st ≤ 1 := by
  unfold volumeNorm
  split_ifs
  · exact clamp01_bounds _
  · exact ⟨le_refl 0, by norm_num⟩

/-- C10: `computeStrength` always lies in `[0, 1]`; on the indicator path it
is the 0.35/0.35/0.30-weighted sum of the clamped components, with no bar
data it is 0, and on the heuristic path it is the 0.6/0.3/0.1-weighted sum
of the clamped fallback components. -/
theorem computeStrength_range_spec (cfg : StrategyConfig) (st : SymbolState) :
    (0 ≤ computeStrength cfg st ∧ computeStrength cfg st ≤ 1) ∧
    (∀ r m a, st.rsiCalc = some r → st.mfiCalc = some m → st.atsoVals.getLast? = some a →
      computeStrength cfg st =
        35/100 * rsiNorm cfg r + 35/100 * mfiNorm cfg m + 30/100 * atsoNorm a) ∧
    ((st.rsiCalc = none ∨ st.mfiCalc = none ∨ st.atsoVals.getLast? = none) →
      computeStrength cfg st =
        if st.hasLast = false then 0
        else 6/10 * rangePerc st + 3/10 * momentumScore st + 1/10 * volumeNorm st) := by
  have hfb :
      0 ≤ (if st.hasLast = false then 0
           else 6/10 * rangePerc st + 3/10 * momentumScore st + 1/10 * volumeNorm st) ∧
      (if st.hasLast = false then 0
           else 6/10 * rangePerc st + 3/10 * momentumScore st + 1/10 * volumeNorm st) ≤ 1 := by
    split_ifs
    · exact ⟨le_refl 0, by norm_num⟩
    · obtain ⟨r1, r2⟩ := rangePerc_bounds st
      obtain ⟨m1, m2⟩ := momentumScore_bounds st
      obtain ⟨v1, v2⟩ := volumeNorm_bounds st
      constructor <;> linarith
  refine ⟨?_, ?_, ?_⟩
  · rcases hr : st.rsiCalc with _ | r <;> rcases hm : st.mfiCalc with _ | m <;>
      rcases ha : st.atsoVals.getLast? with _ | a <;>
      (unfold computeStrength; rw [hr, hm, ha])
    all_goals try exact hfb
    show 0 ≤ 35/100 * rsiNorm cfg r + 35/100 * mfiNorm cfg m + 30/100 * atsoNorm a ∧
      35/100 * rsiNorm cfg r + 35/100 * mfiNorm cfg m + 30/100 * atsoNorm a ≤ 1
    obtain ⟨x1, x2⟩ := rsiNorm_bounds cfg r
    obtain ⟨y1, y2⟩ := mfiNorm_bounds cfg m
    obtain ⟨z1, z2⟩ := atsoNorm_bounds a
    constructor <;> linarith
  · intro r m a hr hm ha
    unfold computeStrength
    rw [hr, hm, ha]
  · rintro (h | h | h)
    · unfold computeStrength
      rw [h]
    · rcases hr : st.rsiCalc with _ | r
      · unfold computeStrength
        rw [hr]
      · unfold computeStrength
        rw [hr, h]
    · rcases hr : st.rsiCalc with _ | r
      · unfold computeStrength
        rw [hr]
      · rcases hm : st.mfiCalc with _ | m
        · unfold computeStrength
          rw [hr, hm]
        · unfold computeStrength
          rw [hr, hm, h]

/-! ## `RiskParityRotation.rebalance` -/

/-- The exit/entry price resolution of `rebalance`: the symbol's last bar
close, falling back to the last close the indicator suite recorded; 0 means
no usable price (the symbol is skipped). -/
def resolvePrice (st : SymbolState) : ℚ :=
  let price := st.lastBar.close
  if price = 0 then
    match st.closes.getLast? with
    | some c => c
    | none => price
  else price

/-- The executor's position/cash ledger (per symbol signed quantity).  The
volume-weighted average price is irrelevant to the rotation claims and
omitted. -/
structure Book where
  pos : String → ℚ
  equity : ℚ

/-- `Executor.Submit` in the all-orders-accepted scenario of the rotation
claim (the claim conditions on every submitted order being accepted, so the
insufficient-cash rejection of the mock/paper executors never fires). -/
def submitAccepted (b : Book) (o : Order) : Book :=
  let cost := o.price * o.qty
  if o.side = Side.buy then
    { pos := fun s => if s = o.symbol then b.pos s + o.qty else b.pos s,
      equity := b.equity - cost }
  else
    { pos := fun s => if s = o.symbol then b.pos s - o.qty else b.pos s,
      equity := b.equity + cost }

/-- Step 2 of `rebalance`: the target set is the longest prefix of the
descending ranking of length at most `topK` whose scores exceed the minimum
strength threshold 0.1. -/
def targetSetOf (sorted : List (String × ℚ)) (topK : ℕ) : List String :=
  ((sorted.take topK).takeWhile (fun q => (1/10 : ℚ) < q.2)).map Prod.fst

/-- `RiskParityRotation.closePosition`: submit the flattening order, no-op
when flat. -/
def rpClosePosition (b : Book) (symbol : String) (price : ℚ) : Book :=
  let qty := b.pos symbol
  if qty = 0 then b
  else
    submitAccepted b
      { symbol := symbol, side := if qty < 0 then Side.buy else Side.sell,
        qty := |qty|, price := price }

/-- Step 3 of `rebalance` for one symbol of the universe: close a held
position that fell out of the target set, skipping symbols with no usable
price. -/
def rebalanceCloseStep (states : String → SymbolState) (target : List String)
    (b : Book) (sym : String) : Book :=
  if b.pos sym = 0 then b
  else if sym ∈ target then b
  else
    let price := resolvePrice (states sym)
    if price = 0 then b
    else rpClosePosition b sym price

/-- Step 4 of `rebalance` for one target symbol: open an equal-risk position
(risk fraction `MaxRiskPerTrade / topK`), siding with the ATSO sign, falling
back to the last price change. -/
def rebalanceOpenStep (cfg : StrategyConfig) (states : String → SymbolState)
    (totalEquity : ℚ) (topK : ℕ) (b : Book) (sym : String) : Book :=
  if b.pos sym ≠ 0 then b
  else
    let price := resolvePrice (states sym)
    if price = 0 then b
    else
      let qtyToTrade := CalcQty totalEquity (cfg.MaxRiskPerTrade / (topK : ℚ))
        cfg.StopLossPct price cfg
      if qtyToTrade ≤ 0 then b
      else
        let side :=
          match (states sym).atsoCalc with
          | some atsoRaw => if atsoRaw < 0 then Side.sell else Side.buy
          | none =>
            if (states sym).hasPrev = true ∧ 0 < (states sym).prevClose ∧
                (states sym).lastBar.close < (states sym).prevClose then Side.sell
            else Side.buy
        submitAccepted b { symbol := sym, side := side, qty := qtyToTrade, price := price }

/-- `RiskParityRotation.rebalance` (steps 2–4), parametrised by the
descending (symbol, score) ranking that Go's map iteration plus `sort.Slice`
produce.  The sizing equity is read once after the close pass, as the code
reads `rp.exec.Equity()` there. -/
def rebalance (cfg : StrategyConfig) (univ : List String) (topK : ℕ)
    (states : String → SymbolState) (sorted : List (String × ℚ)) (b : Book) : Book :=
  let target := targetSetOf sorted topK
  let b1 := univ.foldl (rebalanceCloseStep states target) b
  target.foldl (rebalanceOpenStep cfg states b1.equity topK) b1

theorem rpClosePosition_pos_self (b : Book) (sym : String) (price : ℚ) :
    (rpClosePosition b sym price).pos sym = 0 := by
  by_cases h1 : b.pos sym = 0
  · simp [rpClosePosition, h1]
  · by_cases h2 : b.pos sym < 0
    · simp [rpClosePosition, submitAccepted, h1, h2, abs_of_neg h2]
    · have h3 : 0 < b.pos sym := lt_of_le_of_ne (not_lt.mp h2) (Ne.symm h1)
      simp [rpClosePosition, submitAccepted, h1, h2, abs_of_pos h3]

theorem rpClosePosition_pos_other (b : Book) (sym : String) (price : ℚ) (s : String)
    (h : s ≠ sym) : (rpClosePosition b sym price).pos s = b.pos s := by
  simp only [rpClosePosition, submitAccepted]
  split_ifs <;> simp [h]

theorem rebalanceCloseStep_pos_other (states : String → SymbolState) (target : List String)
    (b : Book) (sym s : String) (h : s ≠ sym) :
    (rebalanceCloseStep states target b sym).pos s = b.pos s := by
  simp only [rebalanceCloseStep]
  split_ifs <;> first | rfl | exact rpClosePosition_pos_other b sym _ s h

theorem rebalanceOpenStep_pos_other (cfg : StrategyConfig) (states : String → SymbolState)
    (totalEquity : ℚ) (topK : ℕ) (b : Book) (sym s : String) (h : s ≠ sym) :
    (rebalanceOpenStep cfg states totalEquity topK b sym).pos s = b.pos s := by
  simp only [rebalanceOpenStep, submitAccepted]
  split_ifs <;> simp [h]

theorem closeFold_spec (states : String → SymbolState) (target : List String) :
    ∀ (l : List String) (b : Book) (s : String),
      ((l.foldl (rebalanceCloseStep states target) b).pos s = 0 ∨
       (l.foldl (rebalanceCloseStep states target) b).pos s = b.pos s) ∧
      (s ∈ l → s ∉ target → resolvePrice (states s) ≠ 0 →
        (l.foldl (rebalanceCloseStep states target) b).pos s = 0) := by
  intro l
  induction l with
  | nil => exact fun b s => ⟨Or.inr rfl, fun h => absurd h (List.not_mem_nil s)⟩
  | cons a rest ih =>
    intro b s
    rw [List.foldl_cons]
    by_cases hs : s = a
    · subst hs
      have hstep : (rebalanceCloseStep states target b s).pos s = 0 ∨
          (rebalanceCloseStep states target b s).pos s = b.pos s := by
        simp only [rebalanceCloseStep]
        split_ifs
        · exact Or.inr rfl
        · exact Or.inr rfl
        · exact Or.inr rfl
        · exact Or.inl (rpClosePosition_pos_self b s _)
      constructor
      · rcases (ih (rebalanceCloseStep states target b s) s).1 with h | h
        · exact Or.inl h
        · rw [h]
          exact hstep
      · intro _ hnt hpr
        have h0 : (rebalanceCloseStep states target b s).pos s = 0 := by
          simp only [rebalanceCloseStep]
          split_ifs with k1
          · exact k1
          · exact rpClosePosition_pos_self b s _
        rcases (ih (rebalanceCloseStep states target b s) s).1 with h | h
        · exact h
        · rw [h, h0]
    · have hstep : (rebalanceCloseStep states target b a).pos s = b.pos s :=
        rebalanceCloseStep_pos_other states target b a s hs
      constructor
      · rcases (ih (rebalanceCloseStep states target b a) s).1 with h | h
        · exact Or.inl h
        · rw [h, hstep]
          exact Or.inr rfl
      · intro hmem hnt hpr
        rcases List.mem_cons.mp hmem with he | hrest
        · exact absurd he hs
        · exact (ih (rebalanceCloseStep states target b a) s).2 hrest hnt hpr

theorem openFold_untouched (cfg : StrategyConfig) (states : String → SymbolState)
    (totalEquity : ℚ) (topK : ℕ) :
    ∀ (l : List String) (b : Book) (s : String), s ∉ l →
      (l.foldl (rebalanceOpenStep cfg states totalEquity topK) b).pos s = b.pos s := by
  intro l
  induction l with
  | nil => exact fun b s _ => rfl
  | cons a rest ih =>
    intro b s hs
    rw [List.foldl_cons]
    rw [ih _ s (fun h => hs (List.mem_cons_of_mem a h))]
    exact rebalanceOpenStep_pos_other cfg states totalEquity topK b a s
      (fun h => hs (h ▸ List.mem_cons_self a rest))

set_option maxHeartbeats 1000000 in
/-- C1 (amended): after a completed rebalance in which every submitted order
is accepted AND every symbol held on entry has a non-zero resolved exit
price, the target set taken from the descending ranking has at most `topK`
symbols, every universe symbol outside it ends flat, and at most `topK`
positions remain.  (A held symbol whose price resolves to 0 is skipped by
the close pass — see the counterexample.) -/
theorem rotation_topK_bound (cfg : StrategyConfig) (univ : List String) (topK : ℕ)
    (states : String → SymbolState) (sorted : List (String × ℚ)) (b : Book)
    (hnodup : univ.Nodup)
    (hperm : (sorted.map Prod.fst).Perm univ)
    (hdesc : sorted.Pairwise (fun x y => y.2 ≤ x.2))
    (hscore : ∀ q ∈ sorted, q.2 = (states q.1).score)
    (hprice : ∀ s ∈ univ, b.pos s ≠ 0 → resolvePrice (states s) ≠ 0) :
    (targetSetOf sorted topK).length ≤ topK ∧
    (∀ s ∈ univ, s ∉ targetSetOf sorted topK →
      (rebalance cfg univ topK states sorted b).pos s = 0) ∧
    (univ.filter
        (fun s => (rebalance cfg univ topK states sorted b).pos s ≠ 0)).length ≤ topK := by
  have htlen : (targetSetOf sorted topK).length ≤ topK := by
    unfold targetSetOf
    rw [List.length_map]
    refine le_trans (List.Sublist.length_le (List.takeWhile_sublist _)) ?_
    rw [List.length_take]
    exact min_le_left _ _
  have hflat : ∀ s ∈ univ, s ∉ targetSetOf sorted topK →
      (rebalance cfg univ topK states sorted b).pos s = 0 := by
    intro s hs hnt
    unfold rebalance
    rw [openFold_untouched cfg states _ topK (targetSetOf sorted topK) _ s hnt]
    by_cases h0 : b.pos s = 0
    · rcases (closeFold_spec states (targetSetOf sorted topK) univ b s).1 with h | h
      · exact h
      · rw [h, h0]
    · exact (closeFold_spec states (targetSetOf sorted topK) univ b s).2 hs hnt
        (hprice s hs h0)
  refine ⟨htlen, hflat, ?_⟩
  have hsub : ∀ s ∈ univ.filter
      (fun s => (rebalance cfg univ topK states sorted b).pos s ≠ 0),
      s ∈ targetSetOf sorted topK := by
    intro s hsf
    obtain ⟨hsu, hne⟩ := List.mem_filter.mp hsf
    by_contra hnt
    exact (of_decide_eq_true hne) (hflat s hsu hnt)
  calc (univ.filter
        (fun s => (rebalance cfg univ topK states sorted b).pos s ≠ 0)).length
      = (univ.filter
        (fun s => (rebalance cfg univ topK states sorted b).pos s ≠ 0)).toFinset.card :=
        (List.toFinset_card_of_nodup (hnodup.filter _)).symm
    _ ≤ (targetSetOf sorted topK).toFinset.card := by
        refine Finset.card_le_card ?_
        intro x hx
        rw [List.mem_toFinset] at *
        exact hsub x (by simpa using hx)
    _ ≤ (targetSetOf sorted topK).length := List.toFinset_card_le _
    _ ≤ topK := htlen

/-! ## Concrete rotation scenarios -/

theorem strBA : (("B" : String) = "A") = False := by simp

theorem strAB : (("A" : String) = "B") = False := by simp

theorem strAA : (("A" : String) = "A") = True := by simp

theorem strBB : (("B" : String) = "B") = True := by simp

/-- A two-symbol universe. -/
def rotUniv : List String := ["A", "B"]

/-- A descending ranking of that universe. -/
def rotSorted : List (String × ℚ) := [("A", 9/10), ("B", 2/10)]

/-- Symbol A: healthy bar data, positive ATSO. -/
def rotStateA : SymbolState :=
  { score := 9/10,
    lastBar := { high := 101, low := 99, close := 100, volume := 1000 },
    hasLast := true, prevClose := 99, hasPrev := true,
    closes := [99, 100], atsoVals := [1], atsoCalc := some 1,
    rsiCalc := some 50, mfiCalc := some 50 }

/-- Symbol B after a zero-close bar: the last bar close is 0 and the last
recorded close-series entry is 0, so `rebalance` cannot resolve an exit
price for it. -/
def rotStateBzero : SymbolState :=
  { score := 2/10,
    lastBar := { high := 1, low := 0, close := 0, volume := 500 },
    hasLast := true, prevClose := 50, hasPrev := true,
    closes := [50, 0], atsoVals := [1], atsoCalc := some 1,
    rsiCalc := some 50, mfiCalc := some 50 }

/-- Symbol B with healthy bar data. -/
def rotStateBok : SymbolState :=
  { score := 2/10,
    lastBar := { high := 51, low := 49, close := 50, volume := 1000 },
    hasLast := true, prevClose := 49, hasPrev := true,
    closes := [49, 50], atsoVals := [1], atsoCalc := some 1,
    rsiCalc := some 50, mfiCalc := some 50 }

/-- Counterexample states: B is held but has no usable price. -/
def cexStates : String → SymbolState := fun s => if s = "A" then rotStateA else rotStateBzero

/-- Counterexample ledger: one unit of B held. -/
def cexBook : Book := { pos := fun s => if s = "B" then 1 else 0, equity := 10000 }

/-- Witness states: both symbols have usable prices. -/
def wStates : String → SymbolState := fun s => if s = "A" then rotStateA else rotStateBok

/-- Witness ledger: flat book. -/
def wBook : Book := { pos := fun _ => 0, equity := 10000 }

/-- C1 counterexample: universe {A, B}, `topK = 1`, a valid descending
ranking, one held unit of B whose price resolves to 0.  The close pass
skips B, the open pass buys A, and the completed rebalance (no order
rejected — none was even submitted for B) leaves 2 > topK non-zero
positions. -/
theorem rotation_topK_cex :
    rotUniv.Nodup ∧
    (rotSorted.map Prod.fst).Perm rotUniv ∧
    rotSorted.Pairwise (fun x y => y.2 ≤ x.2) ∧
    (∀ q ∈ rotSorted, q.2 = (cexStates q.1).score) ∧
    ¬ ((rotUniv.filter
        (fun s => (rebalance scenarioCfg rotUniv 1 cexStates rotSorted cexBook).pos s ≠ 0)).length ≤ 1) := by
  refine ⟨by decide, by decide, by norm_num [rotSorted], ?_, ?_⟩
  · intro q hq
    fin_cases hq <;> norm_num [cexStates, rotStateA, rotStateBzero, strBA, strAB, strAA, strBB]
  · norm_num [rebalance, targetSetOf, rotSorted, rotUniv, cexStates, cexBook, rotStateA,
      rotStateBzero, rebalanceCloseStep, rebalanceOpenStep, rpClosePosition, submitAccepted,
      resolvePrice, CalcQty, scenarioCfg, two_toNat, List.filter_cons, decide_eq_true_eq,
      strBA, strAB, strAA, strBB]

/-- C1 witness: the amended bound applied to the two-symbol universe with a
flat book and usable prices. -/
theorem rotation_topK_bound_witness :
    (targetSetOf rotSorted 1).length ≤ 1 ∧
    (∀ s ∈ rotUniv, s ∉ targetSetOf rotSorted 1 →
      (rebalance scenarioCfg rotUniv 1 wStates rotSorted wBook).pos s = 0) ∧
    (rotUniv.filter
        (fun s => (rebalance scenarioCfg rotUniv 1 wStates rotSorted wBook).pos s ≠ 0)).length ≤ 1 :=
  rotation_topK_bound scenarioCfg rotUniv 1 wStates rotSorted wBook
    (by decide) (by decide) (by norm_num [rotSorted])
    (by
      intro q hq
      fin_cases hq <;> norm_num [wStates, rotStateA, rotStateBok, strBA, strAB, strAA, strBB])
    (fun s _ h => absurd rfl h)

/-! ## HybridTrendMeanReversion (trend-then-mean-reversion FSM) -/

/-- `hybridState`. -/
inductive HybridFSMState
  | idle
  | trend
  | revert
deriving DecidableEq, Repr

/-- The single-symbol view of `MockExecutor`/`PaperExecutor`: cash, signed
position and volume-weighted average price for the strategy's symbol. -/
structure ExecState where
  equity : ℚ
  pos : ℚ
  avg : ℚ
deriving DecidableEq, Repr

/-- The strategy's one symbol. -/
def hybridSymbol : String := "SYM"

/-- `MockExecutor.Submit` for that symbol: a buy whose cost exceeds cash is
silently dropped; the division by a zero position after a full flatten reads
0 in `ℚ` where Go's float produces NaN (the quantity is 0 there either way,
and no claim reads the average of a flat position). -/
def submitMock (e : ExecState) (o : Order) : ExecState :=
  if o.qty = 0 then e
  else
    let cost := o.price * o.qty
    if o.side = Side.buy then
      if e.equity < cost then e
      else
        let newPos := e.pos + o.qty
        { equity := e.equity - cost, pos := newPos,
          avg := (e.avg * (newPos - o.qty) + cost) / newPos }
    else
      let newPos := e.pos - o.qty
      { equity := e.equity + cost, pos := newPos,
        avg := (e.avg * (newPos + o.qty) + cost) / newPos }

/-- `HybridTrendMeanReversion`'s mutable state (`trendSide` starts as the
empty string, modelled as `none`). -/
structure HybridState where
  fsm : HybridFSMState
  trendSide : Option Side
  flatBarCounter : ℕ
  prices : PriceBuffer
  exec : ExecState
deriving DecidableEq, Repr

/-- One bar together with the external indicator suite's responses to the
calls `ProcessBar` makes on it: whether `Add` succeeded, the two HMA
crossover outcomes and the RSI/MFI `Calculate` outcomes (`none` = error). -/
structure HybridBar where
  high : ℚ
  low : ℚ
  close : ℚ
  volume : ℚ
  suiteAddOk : Bool
  hmaBull : Option Bool
  hmaBear : Option Bool
  rsi : Option ℚ
  mfi : Option ℚ
deriving DecidableEq, Repr

/-- The `ok, err := ...IsBullishCrossover(); if err == nil { ... || ok }`
pattern: an errored crossover contributes `false`. -/
def hmaOk : Option Bool → Bool
  | some ok => ok
  | none => false

/-- `BaseStrategy.bullishFallback`. -/
def bullishFallback (prices : PriceBuffer) : Bool :=
  if prices.buf.length < 3 then false
  else if 0 < prices.Trend ∧ 0 < prices.Slope then true else false

/-- `BaseStrategy.bearishFallback`. -/
def bearishFallback (prices : PriceBuffer) : Bool :=
  if prices.buf.length < 3 then false
  else if prices.Trend < 0 ∧ prices.Slope < 0 then true else false

/-- `BaseStrategy.lastPriceChange`. -/
def lastPriceChange (prices : PriceBuffer) : ℚ :=
  if prices.buf.length < 2 then 0 else prices.Last - prices.Prev

/-- `BaseStrategy.hasHistory`. -/
def hasHistory (prices : PriceBuffer) (n : ℕ) : Bool :=
  if n ≤ prices.buf.length then true else false

/-- `BaseStrategy.calcQty`: delegates to `risk.CalcQty` with the executor's
equity and the stored config. -/
def calcQtyBase (cfg : StrategyConfig) (e : ExecState) (price : ℚ) : ℚ :=
  CalcQty e.equity cfg.MaxRiskPerTrade cfg.StopLossPct price cfg

/-- `BaseStrategy.closePosition` acting on the executor. -/
def closePositionExec (e : ExecState) (price : ℚ) : ExecState :=
  if e.pos = 0 then e
  else
    submitMock e
      { symbol := hybridSymbol, side := if e.pos < 0 then Side.buy else Side.sell,
        qty := |e.pos|, price := price }

/-- `BaseStrategy.applyTrailingStop` acting on the executor. -/
def applyTrailingStopExec (cfg : StrategyConfig) (e : ExecState) (currentPrice : ℚ) : ExecState :=
  match applyTrailingStop cfg.TrailingPct hybridSymbol e.pos e.avg currentPrice with
  | some o => submitMock e o
  | none => e

/-- `enterTrend`: open a position and move to the Trend state (no-op when the
sizer returns a non-positive quantity). -/
def enterTrend (cfg : StrategyConfig) (s : HybridState) (side : Side) (price : ℚ) : HybridState :=
  let qty := calcQtyBase cfg s.exec price
  if qty ≤ 0 then s
  else
    { s with
      exec := submitMock s.exec
        { symbol := hybridSymbol, side := side, qty := qty, price := price },
      fsm := HybridFSMState.trend, trendSide := some side, flatBarCounter := 0 }

/-- `exitTrend`: flatten the trend position. -/
def exitTrend (s : HybridState) (price : ℚ) : HybridState :=
  { s with exec := closePositionExec s.exec price }

/-- `openOpposite`: open the contrarian position (the caller sets the state). -/
def openOpposite (cfg : StrategyConfig) (s : HybridState) (side : Side) (price : ℚ) : HybridState :=
  let qty := calcQtyBase cfg s.exec price
  if qty ≤ 0 then s
  else
    { s with
      exec := submitMock s.exec
        { symbol := hybridSymbol, side := side, qty := qty, price := price } }

/-- The `stateIdle` arm of the switch. -/
def hybridIdle (cfg : StrategyConfig) (s : HybridState) (bar : HybridBar) : HybridState :=
  if (bullishFallback s.prices || hmaOk bar.hmaBull) = true then
    enterTrend cfg s Side.buy bar.close
  else if (bearishFallback s.prices || hmaOk bar.hmaBear) = true then
    enterTrend cfg s Side.sell bar.close
  else s

/-- The `stateTrend` arm: reinforce, or count flat bars and exit into Revert
at the threshold 3 (flat tolerance 0.05). -/
def hybridTrend (cfg : StrategyConfig) (s : HybridState) (bar : HybridBar) : HybridState :=
  let trendDir := s.prices.Trend
  let priceDelta := |lastPriceChange s.prices|
  let reinforced : Bool :=
    match s.trendSide with
    | some Side.buy => if 0 < trendDir ∧ 1/20 < priceDelta then true else false
    | some Side.sell => if trendDir < 0 ∧ 1/20 < priceDelta then true else false
    | none => false
  if reinforced = true then { s with flatBarCounter := 0 }
  else if 3 ≤ s.flatBarCounter + 1 then
    { exitTrend { s with flatBarCounter := s.flatBarCounter + 1 } bar.close with
      fsm := HybridFSMState.revert, flatBarCounter := 0 }
  else { s with flatBarCounter := s.flatBarCounter + 1 }

/-- The `stateRevert` arm: a contrarian overbought/oversold entry returns to
Idle; the trailing stop still applies when a position was open at the start
of the bar (the Go code reads `posQty` before the switch; nothing changes
the executor between that read and this arm). -/
def hybridRevert (cfg : StrategyConfig) (s : HybridState) (bar : HybridBar) : HybridState :=
  let deltaRaw := lastPriceChange s.prices
  let rsiVal := match bar.rsi with | some v => v | none => 50
  let mfiVal := match bar.mfi with | some v => v | none => 50
  let rsOverbought := if cfg.RSIOverbought ≤ cfg.RSIOversold then 70 else cfg.RSIOverbought
  let rsOversold := if cfg.RSIOverbought ≤ cfg.RSIOversold then 30 else cfg.RSIOversold
  let mfiOverbought := if cfg.MFIOverbought ≤ cfg.MFIOversold then 80 else cfg.MFIOverbought
  let mfiOversold := if cfg.MFIOverbought ≤ cfg.MFIOversold then 20 else cfg.MFIOversold
  let posQty := s.exec.pos
  let s1 :=
    match s.trendSide with
    | some Side.buy =>
      if 1/20 < deltaRaw ∧ rsOverbought ≤ rsiVal ∧ mfiOverbought ≤ mfiVal then
        { openOpposite cfg s Side.sell bar.close with fsm := HybridFSMState.idle }
      else s
    | _ =>
      if deltaRaw < -(1/20) ∧ rsiVal ≤ rsOversold ∧ mfiVal ≤ mfiOversold then
        { openOpposite cfg s Side.buy bar.close with fsm := HybridFSMState.idle }
      else s
  if posQty ≠ 0 ∧ 0 < cfg.TrailingPct then
    { s1 with exec := applyTrailingStopExec cfg s1.exec bar.close }
  else s1

/-- The body of `ProcessBar` after the price was recorded and the warm-up
gate passed. -/
def hybridStep (cfg : StrategyConfig) (s : HybridState) (bar : HybridBar) : HybridState :=
  if hasHistory s.prices 15 = false then s
  else
    match s.fsm with
    | HybridFSMState.idle => hybridIdle cfg s bar
    | HybridFSMState.trend => hybridTrend cfg s bar
    | HybridFSMState.revert => hybridRevert cfg s bar

/-- `HybridTrendMeanReversion.ProcessBar`: bail out on a suite error,
record the close, then run the FSM. -/
def hybridProcessBar (cfg : StrategyConfig) (s : HybridState) (bar : HybridBar) : HybridState :=
  if bar.suiteAddOk = false then s
  else hybridStep cfg { s with prices := s.prices.Add bar.close } bar

/-- Driving the FSM over a whole bar sequence. -/
def hybridRun (cfg : StrategyConfig) (s : HybridState) (bars : List HybridBar) : HybridState :=
  bars.foldl (hybridProcessBar cfg) s


/-! ### FSM transition discipline (HybridTrendMeanReversion) -/

/-- Helper: `types.Side` constructor disequality, phrased as a rewrite. -/
theorem sideSB : ((Side.sell : Side) = Side.buy) = False := eq_false (fun h => Side.noConfusion h)

/-- Helper: `types.Side` constructor disequality, phrased as a rewrite. -/
theorem sideBS : ((Side.buy : Side) = Side.sell) = False := eq_false (fun h => Side.noConfusion h)

/-- Helper: `types.Side` constructor equality, phrased as a rewrite. -/
theorem sideBB : ((Side.buy : Side) = Side.buy) = True := eq_true rfl

/-- Helper: `types.Side` constructor equality, phrased as a rewrite. -/
theorem sideSS : ((Side.sell : Side) = Side.sell) = True := eq_true rfl

/-- `closePosition` flattens the mock executor whenever the flattening order is
not dropped: a long is always flattened, a short needs enough cash for the
buy-back. -/
theorem closePositionExec_pos (e : ExecState) (price : ℚ)
    (h : 0 ≤ e.pos ∨ price * |e.pos| ≤ e.equity) :
    (closePositionExec e price).pos = 0 := by
  simp only [closePositionExec, submitMock]
  split_ifs with h0 h1 h2 h3 h4 h5 h6
  · exact h0
  · exact absurd (abs_eq_zero.mp h1) h0
  · exfalso
    rcases h with h | h
    · exact absurd h (not_le.mpr h2)
    · exact absurd h (not_le.mpr h4)
  · show e.pos + |e.pos| = 0
    rw [abs_of_neg h2]; ring
  · exact absurd rfl h3
  · exact h5.elim
  · exact h5.elim
  · show e.pos - |e.pos| = 0
    rw [abs_of_nonneg (not_lt.mp h2)]; ring

/-- The Idle arm leaves the FSM state alone or moves it to Trend. -/
theorem hybridIdle_fsm (cfg : StrategyConfig) (s : HybridState) (bar : HybridBar) :
    (hybridIdle cfg s bar).fsm = s.fsm ∨ (hybridIdle cfg s bar).fsm = HybridFSMState.trend := by
  simp only [hybridIdle, enterTrend]
  split_ifs <;> simp

/-- The Trend arm either resets the flat-bar counter, increments it, or exits
into Revert flattening through `closePosition`. -/
theorem hybridTrend_cases (cfg : StrategyConfig) (s : HybridState) (bar : HybridBar) :
    hybridTrend cfg s bar = { s with flatBarCounter := 0 } ∨
    hybridTrend cfg s bar = { s with flatBarCounter := s.flatBarCounter + 1 } ∨
    hybridTrend cfg s bar =
      { s with fsm := HybridFSMState.revert, flatBarCounter := 0,
               exec := closePositionExec s.exec bar.close } := by
  simp only [hybridTrend, exitTrend]
  split_ifs <;>
    first
      | exact Or.inl rfl
      | exact Or.inr (Or.inl rfl)
      | exact Or.inr (Or.inr rfl)

/-- A Trend-state bar that lands in Revert flattened a long position. -/
theorem hybridTrend_spec (cfg : StrategyConfig) (s : HybridState) (bar : HybridBar)
    (hf : s.fsm = HybridFSMState.trend) (hpos : 0 ≤ s.exec.pos)
    (hrev : (hybridTrend cfg s bar).fsm = HybridFSMState.revert) :
    (hybridTrend cfg s bar).exec.pos = 0 := by
  rcases hybridTrend_cases cfg s bar with hc | hc | hc
  · rw [hc] at hrev; simp [hf] at hrev
  · rw [hc] at hrev; simp [hf] at hrev
  · rw [hc]
    exact closePositionExec_pos s.exec bar.close (Or.inl hpos)

/-- C3: for every configuration, state and bar, a `ProcessBar` step of
`HybridTrendMeanReversion` (i) only reaches Revert from Revert or Trend — never
directly from Idle — and (ii) when it moves Trend to Revert from a long (or
flat) position, the position after the step is zero.  The claim's second half —
in Idle the executor position is always zero — is refuted by
the companion counterexample: the contrarian Revert-to-Idle entry opens a
position and returns to Idle holding it. -/
theorem hybrid_fsm_transition_spec (cfg : StrategyConfig) (s : HybridState) (bar : HybridBar) :
    ((hybridProcessBar cfg s bar).fsm = HybridFSMState.revert →
      s.fsm = HybridFSMState.revert ∨ s.fsm = HybridFSMState.trend) ∧
    (s.fsm = HybridFSMState.idle → ¬ (hybridProcessBar cfg s bar).fsm = HybridFSMState.revert) ∧
    (s.fsm = HybridFSMState.trend → (hybridProcessBar cfg s bar).fsm = HybridFSMState.revert →
      0 ≤ s.exec.pos → (hybridProcessBar cfg s bar).exec.pos = 0) := by
  obtain ⟨f, ts, cnt, pb, ex⟩ := s
  have key : (hybridProcessBar cfg ⟨f, ts, cnt, pb, ex⟩ bar).fsm = HybridFSMState.revert →
      f = HybridFSMState.revert ∨ f = HybridFSMState.trend := by
    intro hrev
    unfold hybridProcessBar at hrev
    split_ifs at hrev with hadd
    · exact Or.inl hrev
    · unfold hybridStep at hrev
      split_ifs at hrev with hh
      · exact Or.inl hrev
      · cases f with
        | idle =>
          have hrev' : (hybridIdle cfg ⟨HybridFSMState.idle, ts, cnt, pb.Add bar.close, ex⟩ bar).fsm
              = HybridFSMState.revert := hrev
          rcases hybridIdle_fsm cfg ⟨HybridFSMState.idle, ts, cnt, pb.Add bar.close, ex⟩ bar with h | h <;>
            rw [hrev'] at h <;> exact HybridFSMState.noConfusion h
        | trend => exact Or.inr rfl
        | revert => exact Or.inl rfl
  refine ⟨key, ?_, ?_⟩
  · intro hidle hrev
    have hf : f = HybridFSMState.idle := hidle
    subst hf
    rcases key hrev with h | h <;> exact HybridFSMState.noConfusion h
  · intro hf hrev hpos
    have hf' : f = HybridFSMState.trend := hf
    subst hf'
    have hpos' : (0 : ℚ) ≤ ex.pos := hpos
    by_cases hadd : bar.suiteAddOk = false
    · exact absurd hrev (by simp [hybridProcessBar, hadd])
    · by_cases hh : hasHistory (pb.Add bar.close) 15 = false
      · exact absurd hrev (by simp [hybridProcessBar, hybridStep, hadd, hh])
      · have hred : hybridProcessBar cfg ⟨HybridFSMState.trend, ts, cnt, pb, ex⟩ bar
            = hybridTrend cfg ⟨HybridFSMState.trend, ts, cnt, pb.Add bar.close, ex⟩ bar := by
          simp [hybridProcessBar, hybridStep, hadd, hh]
        rw [hred] at hrev ⊢
        exact hybridTrend_spec cfg _ bar rfl hpos' hrev

/-! ### A Revert-to-Idle entry that leaves Idle holding a position -/

/-- A flat bar at price 100: the suite accepts it and reports no signals. -/
def hybridFlatBar : HybridBar :=
  { high := 100, low := 100, close := 100, volume := 1,
    suiteAddOk := true, hmaBull := none, hmaBear := none, rsi := none, mfi := none }

/-- The flat bar with a bullish HMA crossover. -/
def hybridSignalBar : HybridBar := { hybridFlatBar with hmaBull := some true }

/-- A bar jumping to 101 whose oscillators read fully overbought. -/
def hybridRevertBar : HybridBar :=
  { hybridFlatBar with close := 101, rsi := some 100, mfi := some 100 }

/-- Fourteen warm-up bars, filling the 15-bar history gate. -/
def hybridWarmBars : List HybridBar :=
  [hybridFlatBar, hybridFlatBar, hybridFlatBar, hybridFlatBar, hybridFlatBar,
   hybridFlatBar, hybridFlatBar, hybridFlatBar, hybridFlatBar, hybridFlatBar,
   hybridFlatBar, hybridFlatBar, hybridFlatBar, hybridFlatBar]

/-- The driving sequence: warm-up, bullish entry, three flat bars (Trend exits
into Revert), then the overbought reversal bar (Revert re-enters Idle short). -/
def hybridBarsCex : List HybridBar :=
  hybridWarmBars ++ [hybridSignalBar, hybridFlatBar, hybridFlatBar, hybridFlatBar, hybridRevertBar]

/-- The freshly constructed strategy: Idle, no side, 64-slot buffer, flat
executor with 10000 cash. -/
def hybridInit : HybridState :=
  { fsm := HybridFSMState.idle, trendSide := none, flatBarCounter := 0,
    prices := newPriceBuffer 64, exec := { equity := 10000, pos := 0, avg := 0 } }

/-- State after the 14 warm-up bars. -/
def hybridS14 : HybridState :=
  { fsm := HybridFSMState.idle, trendSide := none, flatBarCounter := 0,
    prices := ⟨64, [100, 100, 100, 100, 100, 100, 100, 100, 100, 100, 100, 100, 100, 100]⟩,
    exec := { equity := 10000, pos := 0, avg := 0 } }

/-- State after the bullish entry bar: long 66.66 at 100. -/
def hybridS15 : HybridState :=
  { fsm := HybridFSMState.trend, trendSide := some Side.buy, flatBarCounter := 0,
    prices := ⟨64, [100, 100, 100, 100, 100, 100, 100, 100, 100, 100, 100, 100, 100, 100, 100]⟩,
    exec := { equity := 3334, pos := 3333/50, avg := 100 } }

/-- State after the first flat Trend bar. -/
def hybridS16 : HybridState :=
  { fsm := HybridFSMState.trend, trendSide := some Side.buy, flatBarCounter := 1,
    prices := ⟨64, [100, 100, 100, 100, 100, 100, 100, 100, 100, 100, 100, 100, 100, 100, 100, 100]⟩,
    exec := { equity := 3334, pos := 3333/50, avg := 100 } }

/-- State after the second flat Trend bar. -/
def hybridS17 : HybridState :=
  { fsm := HybridFSMState.trend, trendSide := some Side.buy, flatBarCounter := 2,
    prices := ⟨64, [100, 100, 100, 100, 100, 100, 100, 100, 100, 100, 100, 100, 100, 100, 100, 100, 100]⟩,
    exec := { equity := 3334, pos := 3333/50, avg := 100 } }

/-- State after the third flat Trend bar: the flat-bar threshold fires, the
long is flattened and the FSM enters Revert. -/
def hybridS18 : HybridState :=
  { fsm := HybridFSMState.revert, trendSide := some Side.buy, flatBarCounter := 0,
    prices := ⟨64, [100, 100, 100, 100, 100, 100, 100, 100, 100, 100, 100, 100, 100, 100, 100, 100, 100, 100]⟩,
    exec := { equity := 10000, pos := 0, avg := 0 } }

/-- State after the reversal bar: the contrarian short 66 at 101 is open and
the FSM is back in Idle. -/
def hybridS19 : HybridState :=
  { fsm := HybridFSMState.idle, trendSide := some Side.buy, flatBarCounter := 0,
    prices := ⟨64, [100, 100, 100, 100, 100, 100, 100, 100, 100, 100, 100, 100, 100, 100, 100, 100, 100, 100, 101]⟩,
    exec := { equity := 16666, pos := -66, avg := -101 } }

set_option maxRecDepth 4000 in
/-- The warm-up bars only record prices: the 15-bar gate blocks the FSM. -/
theorem hybridCexWarm :
    List.foldl (hybridProcessBar scenarioCfg) hybridInit hybridWarmBars = hybridS14 := rfl

/-- Bar 15: the bullish crossover enters a long Trend position. -/
theorem hybridCexBar15 : hybridProcessBar scenarioCfg hybridS14 hybridSignalBar = hybridS15 := by
  norm_num [hybridProcessBar, hybridStep, hybridIdle, enterTrend, calcQtyBase, CalcQty,
    scenarioCfg, two_toNat, hasHistory, bullishFallback, bearishFallback, hmaOk,
    hybridSymbol, submitMock, PriceBuffer.Add, PriceBuffer.Trend, PriceBuffer.Slope,
    trendOfList, pairScore, slopeOfList, olsLoop, hybridS14, hybridS15, hybridSignalBar,
    hybridFlatBar]

/-- Bar 16: a flat bar increments the flat-bar counter. -/
theorem hybridCexBar16 : hybridProcessBar scenarioCfg hybridS15 hybridFlatBar = hybridS16 := by
  norm_num [hybridProcessBar, hybridStep, hybridTrend, exitTrend, closePositionExec,
    scenarioCfg, two_toNat, hasHistory, lastPriceChange, hybridSymbol, submitMock,
    PriceBuffer.Add, PriceBuffer.Trend, PriceBuffer.Last, PriceBuffer.Prev,
    trendOfList, pairScore, hybridS15, hybridS16, hybridFlatBar]

/-- Bar 17: a second flat bar. -/
theorem hybridCexBar17 : hybridProcessBar scenarioCfg hybridS16 hybridFlatBar = hybridS17 := by
  norm_num [hybridProcessBar, hybridStep, hybridTrend, exitTrend, closePositionExec,
    scenarioCfg, two_toNat, hasHistory, lastPriceChange, hybridSymbol, submitMock,
    PriceBuffer.Add, PriceBuffer.Trend, PriceBuffer.Last, PriceBuffer.Prev,
    trendOfList, pairScore, hybridS16, hybridS17, hybridFlatBar]

/-- Bar 18: the third flat bar flattens the long and enters Revert. -/
theorem hybridCexBar18 : hybridProcessBar scenarioCfg hybridS17 hybridFlatBar = hybridS18 := by
  norm_num [hybridProcessBar, hybridStep, hybridTrend, exitTrend, closePositionExec,
    scenarioCfg, two_toNat, hasHistory, lastPriceChange, hybridSymbol, submitMock,
    PriceBuffer.Add, PriceBuffer.Trend, PriceBuffer.Last, PriceBuffer.Prev,
    trendOfList, pairScore, hybridS17, hybridS18, hybridFlatBar, sideSB, sideBS, sideBB, sideSS,
    abs_of_pos (show (0:ℚ) < 3333/50 by norm_num)]

/-- Bar 19: the overbought reversal opens a contrarian short and returns the
FSM to Idle while the short stays open. -/
theorem hybridCexBar19 : hybridProcessBar scenarioCfg hybridS18 hybridRevertBar = hybridS19 := by
  norm_num [hybridProcessBar, hybridStep, hybridRevert, openOpposite, calcQtyBase, CalcQty,
    applyTrailingStopExec, applyTrailingStop, trailingStopLevel, copysignOne,
    scenarioCfg, two_toNat, hasHistory, lastPriceChange, hybridSymbol, submitMock,
    PriceBuffer.Add, PriceBuffer.Last, PriceBuffer.Prev,
    hybridS18, hybridS19, hybridRevertBar, hybridFlatBar, sideSB, sideBS, sideBB, sideSS]

/-- C3 counterexample: after 19 `ProcessBar` calls the FSM of
`HybridTrendMeanReversion` is in Idle while the executor holds a non-zero
(short 66) position — the contrarian Revert-to-Idle entry leaves its position
open in Idle. -/
theorem hybrid_idle_position_cex :
    (hybridRun scenarioCfg hybridInit hybridBarsCex).fsm = HybridFSMState.idle ∧
    (hybridRun scenarioCfg hybridInit hybridBarsCex).exec.pos ≠ 0 := by
  have hall : hybridRun scenarioCfg hybridInit hybridBarsCex = hybridS19 := by
    unfold hybridRun hybridBarsCex
    rw [List.foldl_append]
    simp only [List.foldl_cons, List.foldl_nil]
    rw [hybridCexWarm, hybridCexBar15, hybridCexBar16, hybridCexBar17, hybridCexBar18,
      hybridCexBar19]
  rw [hall]
  exact ⟨rfl, by norm_num [hybridS19]⟩

end GoTS
